import Mathlib

/-!
A verification development for the kube watch-api client
(`src/renderer/api/kube-watch-api.ts`): a shallow embedding of its stream
parsing (`processBuffer` and the read loop of `connect`), event dispatch
(`getMessage`), subscription registry (`subscribeApi`, `subscribeStores`),
connection lifecycle (`connect` / `disconnect`) and per-target reconnection
(`onServerStreamEnd`), together with theorems checking the documented
behaviour.

Modelling conventions:
- stream text (JavaScript strings on the wire) is `List Char` (`Str`);
- the external JavaScript `JSON.parse` is a parameter
  `parse : Str → Option KubeWatchEvent`, where `none` stands for a thrown
  JSON exception;
- the external `apiManager` and the per-`KubeApi` resource-version store
  are a parameter `ApiEnv` plus an explicit association-list table;
- `fetch`, timers and interleavings of `async` suspensions are explicit
  parameters or explicitly sequenced phase functions.
-/

/-- Stream text: the contents of a JavaScript string, character by
character. -/
abbrev Str := List Char

/-- Last element of a list, with a default for the empty list (the shape of
JavaScript `arr[arr.length - 1]`). -/
def lastD {α : Type} (d : α) : List α → α
  | [] => d
  | [a] => a
  | _ :: a :: r => lastD d (a :: r)

/-- JavaScript `text.split("\n")` (source line 218): greatest decomposition
at newline characters, keeping empty fragments, never returning an empty
list. -/
def splitLines : Str → List Str
  | [] => [[]]
  | c :: cs =>
    let r := splitLines cs
    if c = '\n' then [] :: r
    else (c :: r.headI) :: r.tail

/-- The carried-over tail of a text: the part after its last newline. -/
def lastLine (s : Str) : Str :=
  lastD [] (splitLines s)


/-- Metadata of a watched object (`data.object.metadata` in the source);
`ns` models the JavaScript `metadata.namespace` field, with `""` for a
cluster-scoped (absent) namespace. -/
structure KubeMeta where
  ns : String
  resourceVersion : String
deriving DecidableEq

/-- The embedded resource of a data event (`data.object`). -/
structure KubeObjectData where
  kind : String
  apiVersion : String
  metadata : KubeMeta
deriving DecidableEq

/-- A decoded watch event (`IKubeWatchEvent`): a `type` tag, an optional
embedded `object` (present on well-formed ADDED/MODIFIED/DELETED events)
and a target `url` (meaningful on STREAM_END events). -/
structure KubeWatchEvent where
  type : String
  object : Option KubeObjectData := none
  url : String := ""
deriving DecidableEq

/-- The message handed to `onMessage` listeners (`IKubeWatchMessage`);
`api` and `store` are opaque handles of the external `apiManager`. -/
structure KubeWatchMessage where
  data : Option KubeWatchEvent := none
  error : Option KubeWatchEvent := none
  api : Option String := none
  store : Option String := none
deriving DecidableEq

/-- The external `apiManager`: kind/version resolution to an api handle and
store lookup. -/
structure ApiEnv where
  getApiByKind : String → String → Option String
  getStore : String → Option String

/-- The resumption table: the union of every api handle's resource-version
store, keyed by (api handle, namespace); most recent entry first. -/
abbrev RVTable := List ((String × String) × String)

/-- `api.setResourceVersion(namespace, resourceVersion)` (source lines
269-270): record `rv` as the current version for `(api, ns)`. -/
def setResourceVersion (t : RVTable) (api ns rv : String) : RVTable :=
  ((api, ns), rv) :: t

/-- Read the current version recorded for `(api, ns)`. -/
def lookupRV (t : RVTable) (api ns : String) : Option String :=
  (t.find? (fun e => e.1.1 = api && e.1.2 = ns)).map (fun e => e.2)

/-- The source's switch tests `event.type` against ADDED, DELETED and
MODIFIED (source lines 255-258). -/
def isDataType (t : String) : Bool :=
  t = "ADDED" || t = "DELETED" || t = "MODIFIED"

/-- The ADDED/DELETED/MODIFIED branch of `getMessage` once `data.object`
has been read (source lines 258-276): resolve the kind handler; when found,
record the resource version under the object's namespace and under the
empty namespace, and attach the handler and its store to the message. -/
def dataMessage (env : ApiEnv) (d : RVTable) (e : KubeWatchEvent)
    (obj : KubeObjectData) : RVTable × KubeWatchMessage :=
  match env.getApiByKind obj.kind obj.apiVersion with
  | some api =>
    let d := setResourceVersion d api obj.metadata.ns obj.metadata.resourceVersion
    let d := setResourceVersion d api "" obj.metadata.resourceVersion
    (d, { data := some e, api := some api, store := env.getStore api })
  | none => (d, { data := some e })

/-- `KubeWatchApi.getMessage` (source lines 251-292). `none` models the
JavaScript `TypeError` thrown when a data-typed event has no `object`
(reading `data.object.kind` throws; nothing is emitted and the table is
untouched). On STREAM_END the source additionally fires
`onServerStreamEnd`, modelled separately below. -/
def getMessage (env : ApiEnv) (d : RVTable) (e : KubeWatchEvent) :
    Option (RVTable × KubeWatchMessage) :=
  if isDataType e.type then
    match e.object with
    | none => none
    | some obj => some (dataMessage env d e obj)
  else if e.type = "ERROR" then
    some (d, { error := some e })
  else
    some (d, {})

/-- One iteration of the `try` body of `processBuffer` (source lines
238-242): `JSON.parse` then `getMessage` then emit; `none` models a thrown
exception (parse failure, or `getMessage` throwing). -/
def dispatchOf (env : ApiEnv) (parse : Str → Option KubeWatchEvent)
    (d : RVTable) (json : Str) : Option (RVTable × KubeWatchMessage) :=
  match parse json with
  | none => none
  | some e => getMessage env d e

/-- Whether a line is dispatched at all (independent of the table state):
it parses and, when data-typed, carries an object. -/
def dispatches (parse : Str → Option KubeWatchEvent) (l : Str) : Bool :=
  match parse l with
  | none => false
  | some e => !(isDataType e.type && e.object.isNone)

/-- `KubeWatchApi.processBuffer` (source lines 236-249): dispatch the lines
in order; at the first line that throws, stop and return that line as the
new buffer (the source's `return json`), discarding the remaining lines.
Returns (final table, emitted messages in order, returned buffer). -/
def processBuffer (env : ApiEnv) (parse : Str → Option KubeWatchEvent) :
    RVTable → List Str → RVTable × List KubeWatchMessage × Str
  | d, [] => (d, [], [])
  | d, json :: rest =>
    match dispatchOf env parse d json with
    | none => (d, [], json)
    | some (d', msg) =>
      let r := processBuffer env parse d' rest
      (r.1, msg :: r.2.1, r.2.2)

/-- Successful dispatch of a whole list of lines, threading the table:
`none` as soon as one line fails. -/
def dispatchFold (env : ApiEnv) (parse : Str → Option KubeWatchEvent) :
    RVTable → List Str → Option (RVTable × List KubeWatchMessage)
  | d, [] => some (d, [])
  | d, l :: ls =>
    match dispatchOf env parse d l with
    | none => none
    | some (d', m) =>
      match dispatchFold env parse d' ls with
      | none => none
      | some (d'', ms) => some (d'', m :: ms)

/-- The read loop of `connect` (source lines 206-221): for each chunk,
split the carried buffer plus the chunk at newlines and run
`processBuffer`; the loop's final buffer is discarded when the stream
ends. Returns (final table, all emitted messages in order, final buffer). -/
def feedChunks (env : ApiEnv) (parse : Str → Option KubeWatchEvent) :
    RVTable → Str → List Str → RVTable × List KubeWatchMessage × Str
  | d, buf, [] => (d, [], buf)
  | d, buf, c :: cs =>
    let r1 := processBuffer env parse d (splitLines (buf ++ c))
    let r2 := feedChunks env parse r1.1 r1.2.2 cs
    (r2.1, r1.2.1 ++ r2.2.1, r2.2.2)

/-- The subscriber map `observable.map<KubeApi, number>` (source line 49):
an association list from api handle to reference count. -/
abbrev Subscribers := List (String × Nat)

/-- `getSubscribersCount` (source lines 102-104): `subscribers.get(api) || 0`. -/
def getSubscribersCount (subs : Subscribers) (api : String) : Nat :=
  match subs.find? (fun p => p.1 = api) with
  | some p => p.2
  | none => 0

/-- `subscribers.delete(api)`. -/
def mapDelete (subs : Subscribers) (api : String) : Subscribers :=
  subs.filter (fun p => !(p.1 = api : Bool))

/-- `subscribers.set(api, n)`. -/
def mapSet (subs : Subscribers) (api : String) (n : Nat) : Subscribers :=
  (api, n) :: mapDelete subs api

/-- `KubeWatchApi.subscribeApi` registration (source lines 109-111):
increment the count of every target. -/
def subscribeApi (subs : Subscribers) (apis : List String) : Subscribers :=
  apis.foldl (fun s api => mapSet s api (getSubscribersCount s api + 1)) subs

/-- The body of the disposer's `forEach` (source lines 114-119): re-read
the current count of one target, subtract one, and delete at zero (the
JavaScript `count <= 0` test agrees with truncated `Nat` subtraction: both
fire exactly when the stored count was ≤ 1). -/
def disposeStep (s : Subscribers) (api : String) : Subscribers :=
  let count := getSubscribersCount s api - 1
  if count = 0 then mapDelete s api else mapSet s api count

/-- One invocation of the disposer returned by `subscribeApi` (source lines
113-120). -/
def disposerRun (apis : List String) (subs : Subscribers) : Subscribers :=
  apis.foldl disposeStep subs

/-- Closure state of one `subscribeStores` call (source lines 123-159):
the `isDisposed` flag, the `disposers` array (modelled by its length), the
number of store subscriptions currently active, and whether the preload
rejection handler has logged. -/
structure StoresState where
  isDisposed : Bool
  disposers : Nat
  activeSubs : Nat
  logged : Bool
deriving DecidableEq

def initialStores : StoresState :=
  { isDisposed := false, disposers := 0, activeSubs := 0, logged := false }

/-- `function unsubscribe()` (source lines 137-141): set `isDisposed`,
invoke every recorded disposer (each unsubscribes one store), clear the
array. -/
def unsubscribeRun (s : StoresState) : StoresState :=
  { s with isDisposed := true, activeSubs := s.activeSubs - s.disposers, disposers := 0 }

/-- The point, relative to the suspension inside `async function
subscribe()`, at which the caller invokes the returned disposer. -/
inductive DisposeTime
  | never
  | beforeSubscribe
  | duringSubscribe
  | afterSubscribe
deriving DecidableEq

/-- `async function subscribe()` (source lines 129-135) for `n` stores,
interleaved with at most one disposer invocation at `dt`: the entry
`isDisposed` guard, the awaited `store.subscribe()` calls, the push of
their disposers, and the post-await `isDisposed` re-check. -/
def subscribeRun (n : Nat) (dt : DisposeTime) (s : StoresState) : StoresState :=
  let s := if dt = DisposeTime.beforeSubscribe then unsubscribeRun s else s
  if s.isDisposed then s
  else
    let s := { s with activeSubs := s.activeSubs + n }
    let s := if dt = DisposeTime.duringSubscribe then unsubscribeRun s else s
    let s := { s with disposers := s.disposers + n }
    let s := if s.isDisposed then unsubscribeRun s else s
    if dt = DisposeTime.afterSubscribe then unsubscribeRun s else s

/-- `KubeWatchApi.subscribeStores` (source lines 123-159) for `n` stores:
with `waitUntilLoaded`, a failed preload rejects `Promise.all(loading)` and
the rejection handler logs without ever invoking `subscribe`; otherwise
`subscribe()` is invoked directly and a preload failure is not handled
here at all. -/
def subscribeStoresRun (n : Nat) (preload waitUntilLoaded preloadOk : Bool)
    (dt : DisposeTime) : StoresState :=
  if waitUntilLoaded then
    if preload && !preloadOk then
      let s := { initialStores with logged := true }
      if dt = DisposeTime.never then s else unsubscribeRun s
    else subscribeRun n dt initialStores
  else subscribeRun n dt initialStores

/-- The shared connection fields of `KubeWatchApi`: `requestId` (source
line 43), the stored `reader` handle (line 44, tagged by the request id
that installed it) and `isConnected` (line 48). -/
structure ConnSharedState where
  requestId : Nat
  reader : Option Nat
  isConnected : Bool
deriving DecidableEq

/-- `KubeWatchApi.disconnect` (source lines 229-233): cancel and clear the
reader, clear `isConnected`. -/
def disconnect (s : ConnSharedState) : ConnSharedState :=
  { s with reader := none, isConnected := false }

/-- Outcome of the awaited `fetch` (source lines 190-197): the request
rejects (network failure, or a missing body making `pipeThrough` throw),
or resolves into a stream read as `chunks`, optionally ending in a read
error instead of a clean close. -/
inductive FetchOutcome
  | fetchError
  | body (chunks : List Str) (readError : Bool)
deriving DecidableEq

/-- Observable effects of one complete `connect` invocation. -/
structure ConnectRun where
  state : ConnSharedState
  table : RVTable
  dispatched : List KubeWatchMessage
  cancelledReader : Option Nat
  aborted : Bool
  loggedError : Bool
  chunksRead : Nat
deriving DecidableEq

/-- `KubeWatchApi.connect` (source lines 172-227) as a single sequential
run: the initial `disconnect()`, the offline/empty-target early return,
the `++this.requestId` allocation, the awaited fetch, the staleness check
against `othersDuringFetch` competing `connect` calls that incremented
`this.requestId` while this one awaited (their own writes belong to their
own runs, see the phase functions below), the read loop, and the `finally`
clause clearing `isConnected`. -/
def connect (env : ApiEnv) (parse : Str → Option KubeWatchEvent)
    (d : RVTable) (s : ConnSharedState) (online : Bool) (apis : List String)
    (othersDuringFetch : Nat) (outcome : FetchOutcome) : ConnectRun :=
  let cancelled := s.reader
  let s := disconnect s
  if !online || apis.isEmpty then
    { state := { s with isConnected := false }, table := d, dispatched := [],
      cancelledReader := cancelled, aborted := false, loggedError := false,
      chunksRead := 0 }
  else
    let requestId := s.requestId + 1
    let s := { s with requestId := requestId }
    match outcome with
    | FetchOutcome.fetchError =>
      { state := { s with isConnected := false }, table := d, dispatched := [],
        cancelledReader := cancelled, aborted := false, loggedError := true,
        chunksRead := 0 }
    | FetchOutcome.body chunks readError =>
      let s := { s with requestId := s.requestId + othersDuringFetch }
      if s.requestId ≠ requestId then
        { state := { s with isConnected := false }, table := d, dispatched := [],
          cancelledReader := cancelled, aborted := true, loggedError := false,
          chunksRead := 0 }
      else
        let s := { s with isConnected := true, reader := some requestId }
        let r := feedChunks env parse d [] chunks
        { state := { s with isConnected := false }, table := r.1,
          dispatched := r.2.1, cancelledReader := cancelled, aborted := false,
          loggedError := readError, chunksRead := chunks.length }

/-- Written from the spec's words for the failure semantics of `connect`:
an error is logged exactly when the attempt actually failed (fetch
rejection, or a read error on an attempt that was not superseded), rather
than being skipped (offline or no targets). -/
def connectLogsErrorSpec (online : Bool) (apis : List String)
    (othersDuringFetch : Nat) (outcome : FetchOutcome) : Bool :=
  online && !apis.isEmpty &&
    (match outcome with
     | FetchOutcome.fetchError => true
     | FetchOutcome.body _ readError => othersDuringFetch = 0 && readError)

/-- The atomic prefix of `connect` up to the awaited fetch (source lines
173 and 187): disconnect, then allocate this attempt's request id. -/
def connectBegin (s : ConnSharedState) : ConnSharedState × Nat :=
  let s := disconnect s
  ({ s with requestId := s.requestId + 1 }, s.requestId + 1)

/-- The resumption of `connect` when its fetch resolves (source lines
200-211): if the stored request id moved on, abort (returning `false`);
otherwise install the reader and set `isConnected`. -/
def connectResume (s : ConnSharedState) (myId : Nat) : ConnSharedState × Bool :=
  if s.requestId ≠ myId then (s, false)
  else ({ s with isConnected := true, reader := some myId }, true)

/-- The `finally` clause of `connect` (source lines 224-226): always clear
`isConnected`, touching nothing else. -/
def connectFinally (s : ConnSharedState) : ConnSharedState :=
  { s with isConnected := false }

/-- `KubeWatchApi.onServerStreamEnd` (source lines 294-314) specialised to
the shape of the claims: `apiFound` is whether `apiManager.getApi` found a
handler, `refreshOk k` is whether the `k`-th `refreshResourceVersion` call
succeeds, `isActive` is the registry's activity flag, `timeout` and the
attempts counter are the passed options. Returns the number of refresh
calls made and the list of delays of the scheduled retries. -/
def onServerStreamEnd (apiFound isActive : Bool) (refreshOk : Nat → Bool)
    (timeout : Nat) : Nat → Nat → Nat × List Nat
  | k, attempts =>
    if apiFound = false then (0, [])
    else if refreshOk k then (1, [])
    else
      match attempts with
      | 0 => (1, [])
      | a + 1 =>
        match isActive with
        | false => (1, [])
        | true =>
          let r := onServerStreamEnd apiFound isActive refreshOk timeout (k + 1) a
          (r.1 + 1, timeout :: r.2)

/-- A stream of already-decoded events run through `getMessage`, keeping
the resumption table; an event on which `getMessage` throws leaves the
table untouched (the throw happens before any `setResourceVersion`). -/
def runEvents (env : ApiEnv) : RVTable → List KubeWatchEvent → RVTable
  | d, [] => d
  | d, e :: es =>
    match getMessage env d e with
    | some (d', _) => runEvents env d' es
    | none => runEvents env d es

/-- Written from the spec's words for the resumption table: the resource
version an event contributes for api handle `a` — it must be a dispatched
data event resolving to `a`, and, when `nsFilter` is `some n`, lie in
namespace `n` (with `none` any namespace counts). -/
def eventRV (env : ApiEnv) (a : String) (nsFilter : Option String)
    (e : KubeWatchEvent) : Option String :=
  if isDataType e.type then
    match e.object with
    | some obj =>
      if env.getApiByKind obj.kind obj.apiVersion = some a
          && (match nsFilter with
              | none => true
              | some n => obj.metadata.ns = n) then
        some obj.metadata.resourceVersion
      else none
    | none => none
  else none

/-- Written from the spec's words: the resource version of the most
recently dispatched matching event of a trace. -/
def lastRV (env : ApiEnv) (a : String) (nsFilter : Option String) :
    List KubeWatchEvent → Option String
  | [] => none
  | e :: es =>
    match lastRV env a nsFilter es with
    | some rv => some rv
    | none => eventRV env a nsFilter e

/-- JavaScript source text as stream characters. -/
def toStr (s : String) : Str :=
  s.toList

/-- A concrete `apiManager`: the kind Pod at version v1 is registered. -/
def testEnv : ApiEnv :=
  { getApiByKind := fun k v => if k = "Pod" && v = "v1" then some "podApi" else none,
    getStore := fun a => if a = "podApi" then some "podStore" else none }

/-- A well-formed Pod data event. -/
def podEvent (t n rv : String) : KubeWatchEvent :=
  { type := t,
    object := some { kind := "Pod", apiVersion := "v1",
                     metadata := { ns := n, resourceVersion := rv } } }

/-- The concrete wire lines of the scenarios (brace characters written as
hex escapes). `lineA` and `lineB` are complete well-formed event lines;
`lineAddedNoObject` is valid JSON whose ADDED event carries no object. -/
def lineA : Str :=
  toStr "\x7b\"type\":\"ADDED\",\"object\":\x7b\"kind\":\"Pod\",\"apiVersion\":\"v1\",\"metadata\":\x7b\"namespace\":\"ns1\",\"resourceVersion\":\"7\"\x7d\x7d\x7d"

def lineB : Str :=
  toStr "\x7b\"type\":\"MODIFIED\",\"object\":\x7b\"kind\":\"Pod\",\"apiVersion\":\"v1\",\"metadata\":\x7b\"namespace\":\"ns1\",\"resourceVersion\":\"8\"\x7d\x7d\x7d"

def lineAddedNoObject : Str :=
  toStr "\x7b\"type\":\"ADDED\"\x7d"

def lineEnd : Str :=
  toStr "\x7b\"type\":\"STREAM_END\",\"url\":\"/api-kube/api/v1/pods\"\x7d"

/-- A concrete stand-in for the external `JSON.parse` on the scenario
lines, agreeing with real JSON semantics there: the two complete event
lines parse to their events, the object-less ADDED line parses to an event
with no object, and every other string — in particular the empty string
and every proper prefix of these lines — throws. -/
def testParse (l : Str) : Option KubeWatchEvent :=
  if l = lineA then some (podEvent "ADDED" "ns1" "7")
  else if l = lineB then some (podEvent "MODIFIED" "ns1" "8")
  else if l = lineAddedNoObject then some { type := "ADDED" }
  else if l = lineEnd then some { type := "STREAM_END", url := "/api-kube/api/v1/pods" }
  else none

theorem lastD_cons_cons {α : Type} (d : α) (a b : α) (r : List α) :
    lastD d (a :: b :: r) = lastD d (b :: r) := by
  rfl

theorem lastD_cons_of_ne_nil {α : Type} (d : α) (a : α) {l : List α} (h : l ≠ []) :
    lastD d (a :: l) = lastD d l := by
  cases l with
  | nil => exact absurd rfl h
  | cons b r => rfl

theorem lastD_append_cons {α : Type} (d : α) (A : List α) (x : α) (r : List α) :
    lastD d (A ++ x :: r) = lastD d (x :: r) := by
  induction A with
  | nil => rfl
  | cons a A ih =>
    rw [List.cons_append, lastD_cons_of_ne_nil d a (by simp), ih]

theorem dropLast_cons_of_ne_nil {α : Type} (a : α) {l : List α} (h : l ≠ []) :
    (a :: l).dropLast = a :: l.dropLast := by
  cases l with
  | nil => exact absurd rfl h
  | cons b r => rfl

theorem dropLast_append_cons {α : Type} (A : List α) (x : α) (r : List α) :
    (A ++ x :: r).dropLast = A ++ (x :: r).dropLast := by
  induction A with
  | nil => rfl
  | cons a A ih =>
    rw [List.cons_append, dropLast_cons_of_ne_nil a (by simp), ih, List.cons_append]

theorem dropLast_append_of_ne_nil {α : Type} (A : List α) {B : List α} (h : B ≠ []) :
    (A ++ B).dropLast = A ++ B.dropLast := by
  cases B with
  | nil => exact absurd rfl h
  | cons x r => exact dropLast_append_cons A x r

theorem dropLast_concat_lastD {α : Type} (d : α) {l : List α} (h : l ≠ []) :
    l.dropLast ++ [lastD d l] = l := by
  induction l with
  | nil => exact absurd rfl h
  | cons a r ih =>
    cases r with
    | nil => rfl
    | cons b r' =>
      rw [lastD_cons_cons, dropLast_cons_of_ne_nil a (by simp), List.cons_append,
        ih (by simp)]

theorem cons_headI_tail {α : Type} [Inhabited α] {l : List α} (h : l ≠ []) :
    l.headI :: l.tail = l := by
  cases l with
  | nil => exact absurd rfl h
  | cons a r => rfl

theorem splitLines_cons_newline (cs : Str) :
    splitLines ('\n' :: cs) = [] :: splitLines cs := by
  simp [splitLines]

theorem splitLines_cons_of_ne {c : Char} (hc : c ≠ '\n') (cs : Str) :
    splitLines (c :: cs) =
      (c :: (splitLines cs).headI) :: (splitLines cs).tail := by
  simp [splitLines, hc]

theorem splitLines_ne_nil (s : Str) : splitLines s ≠ [] := by
  cases s with
  | nil => simp [splitLines]
  | cons c cs =>
    by_cases hc : c = '\n'
    · subst hc; rw [splitLines_cons_newline]; simp
    · rw [splitLines_cons_of_ne hc]; simp

theorem lastD_mem {α : Type} (d : α) {l : List α} (h : l ≠ []) :
    lastD d l ∈ l := by
  induction l with
  | nil => exact absurd rfl h
  | cons a r ih =>
    cases r with
    | nil => simp [lastD]
    | cons b r' =>
      rw [lastD_cons_cons]
      exact List.mem_cons_of_mem _ (ih (by simp))

theorem splitLines_append (s t : Str) :
    splitLines (s ++ t) =
      (splitLines s).dropLast ++
        (lastD [] (splitLines s) ++ (splitLines t).headI) :: (splitLines t).tail := by
  induction s with
  | nil =>
    show splitLines t = (lastD [] [[]] ++ (splitLines t).headI) :: (splitLines t).tail
    rw [show lastD [] ([[]] : List Str) = [] from rfl, List.nil_append,
      cons_headI_tail (splitLines_ne_nil t)]
  | cons c cs ih =>
    have hX := splitLines_ne_nil cs
    by_cases hc : c = '\n'
    · subst hc
      rw [List.cons_append, splitLines_cons_newline, splitLines_cons_newline,
        dropLast_cons_of_ne_nil _ hX, lastD_cons_of_ne_nil _ _ hX, ih, List.cons_append]
    · rw [List.cons_append, splitLines_cons_of_ne hc, splitLines_cons_of_ne hc]
      rcases hXeq : splitLines cs with _ | ⟨x0, X'⟩
      · exact absurd hXeq hX
      · cases X' with
        | nil =>
          have hY : splitLines (cs ++ t) =
              (x0 ++ (splitLines t).headI) :: (splitLines t).tail := by
            rw [ih, hXeq]; rfl
          rw [hY]
          simp [lastD]
        | cons x1 Xr =>
          have hY : splitLines (cs ++ t) =
              x0 :: ((x1 :: Xr).dropLast ++
                (lastD [] (x1 :: Xr) ++ (splitLines t).headI) :: (splitLines t).tail) := by
            rw [ih, hXeq, lastD_cons_of_ne_nil _ _ (by simp),
              dropLast_cons_of_ne_nil _ (by simp), List.cons_append]
          rw [hY]
          rfl

theorem newline_not_mem_splitLines (s : Str) :
    ∀ l ∈ splitLines s, '\n' ∉ l := by
  induction s with
  | nil =>
    intro l hl
    simp [splitLines] at hl
    simp [hl]
  | cons c cs ih =>
    intro l hl
    by_cases hc : c = '\n'
    · subst hc
      rw [splitLines_cons_newline] at hl
      rcases List.mem_cons.mp hl with h | h
      · simp [h]
      · exact ih l h
    · rw [splitLines_cons_of_ne hc] at hl
      rw [List.mem_cons] at hl
      rcases hl with h | h
      · subst h
        intro hmem
        rcases List.mem_cons.mp hmem with h' | h'
        · exact hc h'.symm
        · have hhead : (splitLines cs).headI ∈ splitLines cs := by
            cases hX : splitLines cs with
            | nil => exact absurd hX (splitLines_ne_nil cs)
            | cons a r => simp
          exact ih _ hhead h'
      · exact ih l (List.mem_of_mem_tail h)

theorem splitLines_no_newline : ∀ {s : Str}, '\n' ∉ s → splitLines s = [s] := by
  intro s
  induction s with
  | nil => intro _; rfl
  | cons c cs ih =>
    intro h
    have hc : c ≠ '\n' := fun hc => h (by simp [hc])
    have hcs : '\n' ∉ cs := fun hm => h (List.mem_cons_of_mem _ hm)
    rw [splitLines_cons_of_ne hc, ih hcs]
    rfl

theorem lastLine_no_newline (s : Str) : '\n' ∉ lastLine s :=
  newline_not_mem_splitLines s _ (lastD_mem [] (splitLines_ne_nil s))

theorem splitLines_buffer_append (b t : Str) (hb : '\n' ∉ b) :
    splitLines (b ++ t) = (b ++ (splitLines t).headI) :: (splitLines t).tail := by
  rw [splitLines_append, splitLines_no_newline hb]
  rfl

theorem lastLine_append (s t : Str) :
    lastLine (s ++ t) = lastLine (lastLine s ++ t) := by
  unfold lastLine
  rw [splitLines_append s t, lastD_append_cons,
    splitLines_buffer_append (lastD [] (splitLines s)) t (lastLine_no_newline s)]

theorem processBuffer_nil (env : ApiEnv) (parse : Str → Option KubeWatchEvent)
    (d : RVTable) : processBuffer env parse d [] = (d, [], []) :=
  rfl

theorem processBuffer_cons_none (env : ApiEnv) (parse : Str → Option KubeWatchEvent)
    (d : RVTable) (json : Str) (rest : List Str)
    (h : dispatchOf env parse d json = none) :
    processBuffer env parse d (json :: rest) = (d, [], json) := by
  conv_lhs => rw [processBuffer]
  rw [h]

theorem processBuffer_cons_some (env : ApiEnv) (parse : Str → Option KubeWatchEvent)
    (d : RVTable) (json : Str) (rest : List Str) (d' : RVTable)
    (msg : KubeWatchMessage) (h : dispatchOf env parse d json = some (d', msg)) :
    processBuffer env parse d (json :: rest) =
      ((processBuffer env parse d' rest).1,
        msg :: (processBuffer env parse d' rest).2.1,
        (processBuffer env parse d' rest).2.2) := by
  conv_lhs => rw [processBuffer]
  rw [h]

theorem dispatchFold_nil (env : ApiEnv) (parse : Str → Option KubeWatchEvent)
    (d : RVTable) : dispatchFold env parse d [] = some (d, []) :=
  rfl

theorem dispatchFold_cons_none (env : ApiEnv) (parse : Str → Option KubeWatchEvent)
    (d : RVTable) (l : Str) (ls : List Str)
    (h : dispatchOf env parse d l = none) :
    dispatchFold env parse d (l :: ls) = none := by
  conv_lhs => rw [dispatchFold]
  rw [h]

theorem dispatchFold_cons_some (env : ApiEnv) (parse : Str → Option KubeWatchEvent)
    (d : RVTable) (l : Str) (ls : List Str) (d' : RVTable)
    (m : KubeWatchMessage) (h : dispatchOf env parse d l = some (d', m)) :
    dispatchFold env parse d (l :: ls) =
      match dispatchFold env parse d' ls with
      | none => none
      | some (d'', ms) => some (d'', m :: ms) := by
  conv_lhs => rw [dispatchFold]
  rw [h]

theorem feedChunks_nil (env : ApiEnv) (parse : Str → Option KubeWatchEvent)
    (d : RVTable) (buf : Str) : feedChunks env parse d buf [] = (d, [], buf) :=
  rfl

theorem feedChunks_cons (env : ApiEnv) (parse : Str → Option KubeWatchEvent)
    (d : RVTable) (buf c : Str) (cs : List Str) :
    feedChunks env parse d buf (c :: cs) =
      ((feedChunks env parse (processBuffer env parse d (splitLines (buf ++ c))).1
          (processBuffer env parse d (splitLines (buf ++ c))).2.2 cs).1,
        (processBuffer env parse d (splitLines (buf ++ c))).2.1 ++
          (feedChunks env parse (processBuffer env parse d (splitLines (buf ++ c))).1
            (processBuffer env parse d (splitLines (buf ++ c))).2.2 cs).2.1,
        (feedChunks env parse (processBuffer env parse d (splitLines (buf ++ c))).1
          (processBuffer env parse d (splitLines (buf ++ c))).2.2 cs).2.2) := by
  conv_lhs => rw [feedChunks]

theorem getMessage_isSome (env : ApiEnv) (d : RVTable) (e : KubeWatchEvent) :
    (getMessage env d e).isSome = !(isDataType e.type && e.object.isNone) := by
  unfold getMessage
  cases hd : isDataType e.type
  · rw [if_neg (by simp)]
    simp only [Bool.false_and, Bool.not_false]
    split <;> rfl
  · rw [if_pos rfl]
    cases ho : e.object with
    | none => rfl
    | some obj => rfl

theorem dispatchOf_isSome (env : ApiEnv) (parse : Str → Option KubeWatchEvent)
    (d : RVTable) (l : Str) :
    (dispatchOf env parse d l).isSome = dispatches parse l := by
  unfold dispatchOf dispatches
  cases hp : parse l with
  | none => rfl
  | some e => exact getMessage_isSome env d e

theorem dispatchOf_eq_none (env : ApiEnv) (parse : Str → Option KubeWatchEvent)
    (d : RVTable) (l : Str) (h : dispatches parse l = false) :
    dispatchOf env parse d l = none := by
  have h2 := dispatchOf_isSome env parse d l
  rw [h] at h2
  cases hq : dispatchOf env parse d l with
  | none => rfl
  | some v => rw [hq] at h2; simp at h2

theorem dispatchOf_eq_some (env : ApiEnv) (parse : Str → Option KubeWatchEvent)
    (d : RVTable) (l : Str) (h : dispatches parse l = true) :
    ∃ p, dispatchOf env parse d l = some p := by
  have h2 := dispatchOf_isSome env parse d l
  rw [h] at h2
  cases hq : dispatchOf env parse d l with
  | none => rw [hq] at h2; simp at h2
  | some v => exact ⟨v, rfl⟩

theorem dispatchFold_isSome (env : ApiEnv) (parse : Str → Option KubeWatchEvent) :
    ∀ (ls : List Str) (d : RVTable),
      (∀ l ∈ ls, dispatches parse l = true) →
      (dispatchFold env parse d ls).isSome = true := by
  intro ls
  induction ls with
  | nil => intro d _; rfl
  | cons l ls ih =>
    intro d hall
    obtain ⟨⟨d', m⟩, hq⟩ :=
      dispatchOf_eq_some env parse d l (hall l (List.mem_cons_self l ls))
    have hrest := ih d' (fun x hx => hall x (List.mem_cons_of_mem _ hx))
    rw [dispatchFold_cons_some env parse d l ls d' m hq]
    cases hf : dispatchFold env parse d' ls with
    | none => rw [hf] at hrest; simp at hrest
    | some q => rcases q with ⟨d'', ms⟩; rfl

theorem processBuffer_append (env : ApiEnv) (parse : Str → Option KubeWatchEvent) :
    ∀ (ls₁ : List Str) (d d₁ : RVTable) (m₁ : List KubeWatchMessage) (ls₂ : List Str),
      dispatchFold env parse d ls₁ = some (d₁, m₁) →
      processBuffer env parse d (ls₁ ++ ls₂) =
        ((processBuffer env parse d₁ ls₂).1,
          m₁ ++ (processBuffer env parse d₁ ls₂).2.1,
          (processBuffer env parse d₁ ls₂).2.2) := by
  intro ls₁
  induction ls₁ with
  | nil =>
    intro d d₁ m₁ ls₂ h
    rw [dispatchFold_nil] at h
    simp only [Option.some.injEq, Prod.mk.injEq] at h
    obtain ⟨h1, h2⟩ := h
    subst h1; subst h2
    simp
  | cons l ls ih =>
    intro d d₁ m₁ ls₂ h
    cases hq : dispatchOf env parse d l with
    | none => rw [dispatchFold_cons_none env parse d l ls hq] at h; simp at h
    | some p =>
      rcases p with ⟨d', m⟩
      rw [dispatchFold_cons_some env parse d l ls d' m hq] at h
      cases hf : dispatchFold env parse d' ls with
      | none => rw [hf] at h; simp at h
      | some q =>
        rcases q with ⟨d'', ms⟩
        rw [hf] at h
        simp only [Option.some.injEq, Prod.mk.injEq] at h
        obtain ⟨h1, h2⟩ := h
        subst h1; subst h2
        rw [List.cons_append,
          processBuffer_cons_some env parse d l (ls ++ ls₂) d' m hq,
          ih d' d'' ms ls₂ hf]
        simp

theorem processBuffer_splitLines (env : ApiEnv) (parse : Str → Option KubeWatchEvent)
    (S : Str) (d : RVTable)
    (h1 : ∀ l ∈ (splitLines S).dropLast, dispatches parse l = true)
    (h2 : dispatches parse (lastLine S) = false) :
    ∃ d₁ m₁, dispatchFold env parse d (splitLines S).dropLast = some (d₁, m₁) ∧
      processBuffer env parse d (splitLines S) = (d₁, m₁, lastLine S) := by
  have hfold := dispatchFold_isSome env parse _ d h1
  cases hf : dispatchFold env parse d (splitLines S).dropLast with
  | none => rw [hf] at hfold; simp at hfold
  | some p =>
    rcases p with ⟨d₁, m₁⟩
    refine ⟨d₁, m₁, rfl, ?_⟩
    conv_lhs => rw [← dropLast_concat_lastD [] (splitLines_ne_nil S)]
    rw [processBuffer_append env parse _ d d₁ m₁ _ hf]
    have hone : processBuffer env parse d₁ [lastD [] (splitLines S)] =
        (d₁, [], lastLine S) := by
      rw [show ([lastD [] (splitLines S)] : List Str) = lastLine S :: [] from rfl,
        processBuffer_cons_none env parse d₁ _ _ (dispatchOf_eq_none env parse d₁ _ h2)]
    rw [hone]
    simp

theorem processBuffer_merge (env : ApiEnv) (parse : Str → Option KubeWatchEvent)
    (S₁ S₂ : Str) (d : RVTable)
    (h1 : ∀ l ∈ (splitLines S₁).dropLast, dispatches parse l = true)
    (h2 : dispatches parse (lastLine S₁) = false) :
    ∃ d₁ m₁,
      processBuffer env parse d (splitLines S₁) = (d₁, m₁, lastLine S₁) ∧
      processBuffer env parse d (splitLines (S₁ ++ S₂)) =
        ((processBuffer env parse d₁ (splitLines (lastLine S₁ ++ S₂))).1,
          m₁ ++ (processBuffer env parse d₁ (splitLines (lastLine S₁ ++ S₂))).2.1,
          (processBuffer env parse d₁ (splitLines (lastLine S₁ ++ S₂))).2.2) := by
  obtain ⟨d₁, m₁, hf, hP⟩ := processBuffer_splitLines env parse S₁ d h1 h2
  refine ⟨d₁, m₁, hP, ?_⟩
  have hsplit : splitLines (S₁ ++ S₂) =
      (splitLines S₁).dropLast ++ splitLines (lastLine S₁ ++ S₂) := by
    rw [splitLines_append S₁ S₂,
      splitLines_buffer_append (lastLine S₁) S₂ (lastLine_no_newline S₁)]
    rfl
  rw [hsplit, processBuffer_append env parse _ d d₁ m₁ _ hf]

theorem feedChunks_merge (env : ApiEnv) (parse : Str → Option KubeWatchEvent) :
    ∀ (cs : List Str) (c b : Str) (d : RVTable),
      (∀ l ∈ (splitLines (b ++ (c ++ cs.flatten))).dropLast, dispatches parse l = true) →
      (∀ k, k < cs.length →
        dispatches parse (lastLine (b ++ (c ++ (cs.take k).flatten))) = false) →
      feedChunks env parse d b (c :: cs) = feedChunks env parse d b [c ++ cs.flatten] := by
  intro cs
  induction cs with
  | nil =>
    intro c b d _ _
    simp
  | cons c2 cs' ih =>
    intro c b d H1 Hcut
    have hc0 : dispatches parse (lastLine (b ++ c)) = false := by
      have h := Hcut 0 (by simp)
      simpa using h
    have hassoc : b ++ (c ++ (c2 ++ cs'.flatten)) = (b ++ c) ++ (c2 ++ cs'.flatten) :=
      (List.append_assoc b c _).symm
    have H1' : ∀ l ∈ (splitLines ((b ++ c) ++ (c2 ++ cs'.flatten))).dropLast,
        dispatches parse l = true := by
      intro l hl
      apply H1
      rw [show b ++ (c ++ (c2 :: cs').flatten) = (b ++ c) ++ (c2 ++ cs'.flatten) from hassoc]
      exact hl
    have h1' : ∀ l ∈ (splitLines (b ++ c)).dropLast, dispatches parse l = true := by
      intro l hl
      apply H1'
      rw [splitLines_append (b ++ c) (c2 ++ cs'.flatten), dropLast_append_cons]
      exact List.mem_append_left _ hl
    obtain ⟨d₁, m₁, hP, hM⟩ :=
      processBuffer_merge env parse (b ++ c) (c2 ++ cs'.flatten) d h1' hc0
    have hsplit : splitLines ((b ++ c) ++ (c2 ++ cs'.flatten)) =
        (splitLines (b ++ c)).dropLast ++
          splitLines (lastLine (b ++ c) ++ (c2 ++ cs'.flatten)) := by
      rw [splitLines_append (b ++ c) (c2 ++ cs'.flatten),
        splitLines_buffer_append (lastLine (b ++ c)) (c2 ++ cs'.flatten)
          (lastLine_no_newline (b ++ c))]
      rfl
    have hIH1 : ∀ l ∈ (splitLines (lastLine (b ++ c) ++ (c2 ++ cs'.flatten))).dropLast,
        dispatches parse l = true := by
      intro l hl
      apply H1'
      rw [hsplit, dropLast_append_of_ne_nil _ (splitLines_ne_nil _)]
      exact List.mem_append_right _ hl
    have hIHcut : ∀ k, k < cs'.length →
        dispatches parse
          (lastLine (lastLine (b ++ c) ++ (c2 ++ (cs'.take k).flatten))) = false := by
      intro k hk
      have h := Hcut (k + 1) (by simpa using hk)
      rw [show ((c2 :: cs').take (k + 1)).flatten = c2 ++ (cs'.take k).flatten from rfl] at h
      rw [← lastLine_append (b ++ c) (c2 ++ (cs'.take k).flatten), List.append_assoc]
      exact h
    have hIH := ih c2 (lastLine (b ++ c)) d₁ hIH1 hIHcut
    rcases hQ : processBuffer env parse d₁
        (splitLines (lastLine (b ++ c) ++ (c2 ++ cs'.flatten))) with ⟨dQ, mQ, bQ⟩
    rw [hQ] at hM
    dsimp only at hM
    show feedChunks env parse d b (c :: c2 :: cs') =
      feedChunks env parse d b [c ++ (c2 ++ cs'.flatten)]
    rw [feedChunks_cons env parse d b c (c2 :: cs'), hP]
    dsimp only
    rw [hIH, feedChunks_cons env parse d₁ (lastLine (b ++ c)) (c2 ++ cs'.flatten) [],
      feedChunks_nil, hQ]
    dsimp only
    rw [feedChunks_cons env parse d b (c ++ (c2 ++ cs'.flatten)) [], feedChunks_nil,
      show b ++ (c ++ (c2 ++ cs'.flatten)) = (b ++ c) ++ (c2 ++ cs'.flatten) from hassoc,
      hM]
    dsimp only
    simp

/-- Claim C3 (amended): for every stream all of whose complete lines
dispatch, feeding the text as one chunk or split across chunks dispatches
the same events, each exactly once, in the same order — provided no
intermediate cut point leaves a partial tail that itself parses (for
JSON-object lines this only excludes a boundary falling exactly at the end
of a line's content, before its newline). -/
theorem c3_chunk_boundary_invariance (env : ApiEnv)
    (parse : Str → Option KubeWatchEvent) (d : RVTable) (c : Str) (cs : List Str)
    (H1 : ∀ l ∈ (splitLines ((c :: cs).flatten)).dropLast, dispatches parse l = true)
    (Hcut : ∀ k, k < cs.length →
      dispatches parse (lastLine (((c :: cs).take (k + 1)).flatten)) = false) :
    feedChunks env parse d [] (c :: cs) =
      feedChunks env parse d [] [(c :: cs).flatten] := by
  have h1 : ∀ l ∈ (splitLines (([] : Str) ++ (c ++ cs.flatten))).dropLast,
      dispatches parse l = true := by
    intro l hl
    apply H1
    simpa using hl
  have hcut : ∀ k, k < cs.length →
      dispatches parse (lastLine (([] : Str) ++ (c ++ (cs.take k).flatten))) = false := by
    intro k hk
    have h := Hcut k hk
    simpa using h
  have h := feedChunks_merge env parse cs c [] d h1 hcut
  simpa using h

/-- Claim C3 counterexample: both complete lines of the stream
`lineA \n lineB \n` are well-formed dispatching JSON lines, yet splitting
the text right after `lineA`'s content (before its newline) dispatches a
different message sequence than feeding it as one chunk: the fragment
`lineA` parses early, and the empty line produced at the cut then makes
`processBuffer` discard `lineB`. -/
theorem c3_counterexample :
    (∀ l ∈ (splitLines (lineA ++ '\n' :: (lineB ++ ['\n']))).dropLast,
        dispatches testParse l = true) ∧
    (feedChunks testEnv testParse [] [] [lineA, '\n' :: (lineB ++ ['\n'])]).2.1 ≠
      (feedChunks testEnv testParse [] [] [lineA ++ '\n' :: (lineB ++ ['\n'])]).2.1 := by
  decide

theorem c3_witness :
    feedChunks testEnv testParse [] [] [lineA ++ ['\n'], lineB ++ ['\n']] =
      feedChunks testEnv testParse [] []
        [((lineA ++ ['\n']) :: [lineB ++ ['\n']]).flatten] := by
  apply c3_chunk_boundary_invariance testEnv testParse [] (lineA ++ ['\n'])
    [lineB ++ ['\n']]
  · decide
  · intro k hk
    have hk0 : k = 0 := Nat.lt_one_iff.mp hk
    subst hk0
    decide

/-- Claim C2 (amended): processing the split lines of a chunk stops at the
first line that fails to dispatch; each line before it is dispatched
exactly once, the failing line alone becomes the new carried-over buffer,
and the lines after it in the same chunk are discarded — neither
dispatched nor buffered. -/
theorem c2_stops_at_first_failing_line (env : ApiEnv)
    (parse : Str → Option KubeWatchEvent) (d d₁ : RVTable)
    (m₁ : List KubeWatchMessage) (ls₁ : List Str) (f : Str) (ls₂ : List Str)
    (hok : dispatchFold env parse d ls₁ = some (d₁, m₁))
    (hf : dispatches parse f = false) :
    processBuffer env parse d (ls₁ ++ f :: ls₂) = (d₁, m₁, f) := by
  rw [processBuffer_append env parse ls₁ d d₁ m₁ (f :: ls₂) hok,
    processBuffer_cons_none env parse d₁ f ls₂ (dispatchOf_eq_none env parse d₁ f hf)]
  simp

/-- Claim C2 counterexample: after the failing line `x`, the well-formed
line `lineA` is discarded — the returned buffer is `x` alone (not `x` plus
everything after it) and `lineA` is dropped without being dispatched. -/
theorem c2_counterexample :
    dispatches testParse lineA = true ∧
    processBuffer testEnv testParse [] [toStr "x", lineA] = ([], [], toStr "x") := by
  decide

theorem c2_witness :
    processBuffer testEnv testParse [] ([lineA] ++ toStr "x" :: [lineB]) =
      ([(("podApi", ""), "7"), (("podApi", "ns1"), "7")],
        [{ data := some (podEvent "ADDED" "ns1" "7"), api := some "podApi",
           store := some "podStore" }], toStr "x") :=
  c2_stops_at_first_failing_line testEnv testParse [] _ _ [lineA] (toStr "x") [lineB]
    (by decide) (by decide)

/-- Claim C10 (amended): a line that parses successfully emits exactly one
message provided that, when its event is data-typed, it carries an object;
for STREAM_END events and events of unknown type the emitted message is
the empty message (no data, error, api or store field). -/
theorem c10_one_message_per_parsed_line (env : ApiEnv)
    (parse : Str → Option KubeWatchEvent) (d : RVTable) (json : Str)
    (e : KubeWatchEvent) (rest : List Str)
    (hp : parse json = some e)
    (hobj : isDataType e.type = true → e.object.isSome = true) :
    ∃ d' msg,
      dispatchOf env parse d json = some (d', msg) ∧
      processBuffer env parse d (json :: rest) =
        ((processBuffer env parse d' rest).1,
          msg :: (processBuffer env parse d' rest).2.1,
          (processBuffer env parse d' rest).2.2) ∧
      (isDataType e.type = false → e.type ≠ "ERROR" →
        msg = {} ∧ d' = d) := by
  have hgm : dispatchOf env parse d json = getMessage env d e := by
    unfold dispatchOf
    rw [hp]
  have hdisp : dispatches parse json = true := by
    unfold dispatches
    rw [hp]
    cases hd : isDataType e.type
    · simp [hd]
    · have ho := hobj hd
      cases hoo : e.object with
      | none => rw [hoo] at ho; simp at ho
      | some obj => simp [hoo]
  obtain ⟨⟨d', msg⟩, hq⟩ := dispatchOf_eq_some env parse d json hdisp
  refine ⟨d', msg, hq, processBuffer_cons_some env parse d json rest d' msg hq, ?_⟩
  intro hnd hne
  rw [hgm] at hq
  unfold getMessage at hq
  rw [hnd] at hq
  rw [if_neg (by simp), if_neg hne] at hq
  simp only [Option.some.injEq, Prod.mk.injEq] at hq
  exact ⟨hq.2.symm, hq.1.symm⟩

/-- Claim C10 counterexample: the line with type ADDED and no object is
valid JSON and parses successfully, yet no message is emitted for it —
reading `data.object.kind` throws inside `getMessage`, the catch in
`processBuffer` fires, and the line becomes the buffer instead. -/
theorem c10_counterexample :
    testParse lineAddedNoObject = some { type := "ADDED" } ∧
    processBuffer testEnv testParse [] [lineAddedNoObject] =
      ([], [], lineAddedNoObject) := by
  decide

theorem c10_witness :
    ∃ d' msg,
      dispatchOf testEnv testParse [] lineEnd = some (d', msg) ∧
      processBuffer testEnv testParse [] (lineEnd :: []) =
        ((processBuffer testEnv testParse d' []).1,
          msg :: (processBuffer testEnv testParse d' []).2.1,
          (processBuffer testEnv testParse d' []).2.2) ∧
      (isDataType (KubeWatchEvent.type
          { type := "STREAM_END", url := "/api-kube/api/v1/pods" }) = false →
        KubeWatchEvent.type
          { type := "STREAM_END", url := "/api-kube/api/v1/pods" } ≠ "ERROR" →
        msg = {} ∧ d' = []) :=
  c10_one_message_per_parsed_line testEnv testParse [] lineEnd
    { type := "STREAM_END", url := "/api-kube/api/v1/pods" } [] (by decide) (by decide)

theorem lookupRV_cons (b m rv : String) (t : RVTable) (a key : String) :
    lookupRV (((b, m), rv) :: t) a key =
      if b = a ∧ m = key then some rv else lookupRV t a key := by
  unfold lookupRV
  by_cases h1 : b = a
  · by_cases h2 : m = key
    · rw [List.find?_cons_of_pos _ (by simp [h1, h2]), if_pos ⟨h1, h2⟩]
      rfl
    · rw [List.find?_cons_of_neg _ (by simp [h2]), if_neg (by tauto)]
  · rw [List.find?_cons_of_neg _ (by simp [h1]), if_neg (by tauto)]

theorem runEvents_cons_some (env : ApiEnv) (d : RVTable) (e : KubeWatchEvent)
    (es : List KubeWatchEvent) (d' : RVTable) (msg : KubeWatchMessage)
    (h : getMessage env d e = some (d', msg)) :
    runEvents env d (e :: es) = runEvents env d' es := by
  conv_lhs => rw [runEvents]
  rw [h]

theorem runEvents_cons_none (env : ApiEnv) (d : RVTable) (e : KubeWatchEvent)
    (es : List KubeWatchEvent) (h : getMessage env d e = none) :
    runEvents env d (e :: es) = runEvents env d es := by
  conv_lhs => rw [runEvents]
  rw [h]

theorem lastRV_cons (env : ApiEnv) (a : String) (f : Option String)
    (e : KubeWatchEvent) (es : List KubeWatchEvent) :
    lastRV env a f (e :: es) =
      match lastRV env a f es with
      | some rv => some rv
      | none => eventRV env a f e := by
  conv_lhs => rw [lastRV]

theorem getMessage_not_data (env : ApiEnv) (d : RVTable) (e : KubeWatchEvent)
    (hd : isDataType e.type = false) :
    ∃ msg, getMessage env d e = some (d, msg) := by
  unfold getMessage
  rw [hd, if_neg (by simp)]
  split
  · exact ⟨_, rfl⟩
  · exact ⟨_, rfl⟩

theorem getMessage_data_noobj (env : ApiEnv) (d : RVTable) (e : KubeWatchEvent)
    (hd : isDataType e.type = true) (ho : e.object = none) :
    getMessage env d e = none := by
  unfold getMessage
  rw [if_pos hd, ho]

theorem getMessage_data_obj (env : ApiEnv) (d : RVTable) (e : KubeWatchEvent)
    (obj : KubeObjectData) (hd : isDataType e.type = true)
    (ho : e.object = some obj) :
    getMessage env d e = some (dataMessage env d e obj) := by
  unfold getMessage
  rw [if_pos hd, ho]

theorem dataMessage_resolved (env : ApiEnv) (d : RVTable) (e : KubeWatchEvent)
    (obj : KubeObjectData) (api : String)
    (hr : env.getApiByKind obj.kind obj.apiVersion = some api) :
    dataMessage env d e obj =
      (((api, ""), obj.metadata.resourceVersion) ::
          ((api, obj.metadata.ns), obj.metadata.resourceVersion) :: d,
        { data := some e, api := some api, store := env.getStore api }) := by
  unfold dataMessage
  rw [hr]
  rfl

theorem dataMessage_unresolved (env : ApiEnv) (d : RVTable) (e : KubeWatchEvent)
    (obj : KubeObjectData)
    (hr : env.getApiByKind obj.kind obj.apiVersion = none) :
    dataMessage env d e obj = (d, { data := some e }) := by
  unfold dataMessage
  rw [hr]

theorem runEvents_lookup (env : ApiEnv) (a key : String) (nsFilter : Option String)
    (hkey : (nsFilter = none ∧ key = "") ∨ (nsFilter = some key ∧ key ≠ "")) :
    ∀ (es : List KubeWatchEvent) (d : RVTable),
      lookupRV (runEvents env d es) a key =
        match lastRV env a nsFilter es with
        | some rv => some rv
        | none => lookupRV d a key := by
  intro es
  induction es with
  | nil => intro d; rfl
  | cons e es ih =>
    intro d
    rw [lastRV_cons]
    cases hd : isDataType e.type
    · obtain ⟨msg, hm⟩ := getMessage_not_data env d e hd
      rw [runEvents_cons_some env d e es d msg hm, ih d,
        show eventRV env a nsFilter e = none by simp [eventRV, hd]]
      cases hX : lastRV env a nsFilter es <;> rfl
    · cases ho : e.object with
      | none =>
        rw [runEvents_cons_none env d e es (getMessage_data_noobj env d e hd ho),
          ih d, show eventRV env a nsFilter e = none by simp [eventRV, hd, ho]]
        cases hX : lastRV env a nsFilter es <;> rfl
      | some obj =>
        cases hr : env.getApiByKind obj.kind obj.apiVersion with
        | none =>
          have hm := getMessage_data_obj env d e obj hd ho
          rw [dataMessage_unresolved env d e obj hr] at hm
          rw [runEvents_cons_some env d e es d _ hm, ih d,
            show eventRV env a nsFilter e = none by simp [eventRV, hd, ho, hr]]
          cases hX : lastRV env a nsFilter es <;> rfl
        | some b =>
          have hm := getMessage_data_obj env d e obj hd ho
          rw [dataMessage_resolved env d e obj b hr] at hm
          rw [runEvents_cons_some env d e es _ _ hm,
            ih (((b, ""), obj.metadata.resourceVersion) ::
              ((b, obj.metadata.ns), obj.metadata.resourceVersion) :: d)]
          cases hX : lastRV env a nsFilter es with
          | some rv => rfl
          | none =>
            rw [lookupRV_cons, lookupRV_cons]
            rcases hkey with ⟨hf, hk⟩ | ⟨hf, hk⟩
            · subst hf; subst hk
              by_cases hba : b = a
              · rw [if_pos ⟨hba, rfl⟩,
                  show eventRV env a none e = some obj.metadata.resourceVersion by
                    simp [eventRV, hd, ho, hr, hba]]
              · rw [if_neg (by tauto), if_neg (by tauto),
                  show eventRV env a none e = none by
                    simp [eventRV, hd, ho, hr, hba]]
            · subst hf
              by_cases hba : b = a
              · by_cases hnsk : obj.metadata.ns = key
                · rw [if_neg (by exact fun hcon => hk hcon.2.symm),
                    if_pos ⟨hba, hnsk⟩,
                    show eventRV env a (some key) e =
                        some obj.metadata.resourceVersion by
                      simp [eventRV, hd, ho, hr, hba, hnsk]]
                · rw [if_neg (by exact fun hcon => hk hcon.2.symm),
                    if_neg (by tauto),
                    show eventRV env a (some key) e = none by
                      simp [eventRV, hd, ho, hr, hba, hnsk]]
              · rw [if_neg (by tauto), if_neg (by tauto),
                  show eventRV env a (some key) e = none by
                    simp [eventRV, hd, ho, hr, hba]]

/-- Claim C4 (confirmed): starting from an empty table, after any trace of
dispatched events the resumption-table entry of a resolved handler under a
specific namespace `n` is the resource version of the most recently
dispatched ADDED/MODIFIED/DELETED event resolving to that handler in `n`,
and the empty-namespace entry is the most recent across all namespaces. -/
theorem c4_resumption_table_tracks_last_dispatched (env : ApiEnv)
    (es : List KubeWatchEvent) (a n : String) (hn : n ≠ "") :
    lookupRV (runEvents env [] es) a n = lastRV env a (some n) es ∧
    lookupRV (runEvents env [] es) a "" = lastRV env a none es := by
  constructor
  · rw [runEvents_lookup env a n (some n) (Or.inr ⟨rfl, hn⟩) es []]
    cases hX : lastRV env a (some n) es <;> rfl
  · rw [runEvents_lookup env a "" none (Or.inl ⟨rfl, rfl⟩) es []]
    cases hX : lastRV env a none es <;> rfl

theorem c4_witness :
    lookupRV (runEvents testEnv []
        [podEvent "ADDED" "ns1" "7", podEvent "MODIFIED" "ns2" "9"])
      "podApi" "ns1" =
      lastRV testEnv "podApi" (some "ns1")
        [podEvent "ADDED" "ns1" "7", podEvent "MODIFIED" "ns2" "9"] ∧
    lookupRV (runEvents testEnv []
        [podEvent "ADDED" "ns1" "7", podEvent "MODIFIED" "ns2" "9"])
      "podApi" "" =
      lastRV testEnv "podApi" none
        [podEvent "ADDED" "ns1" "7", podEvent "MODIFIED" "ns2" "9"] :=
  c4_resumption_table_tracks_last_dispatched testEnv
    [podEvent "ADDED" "ns1" "7", podEvent "MODIFIED" "ns2" "9"]
    "podApi" "ns1" (by decide)

theorem getSubscribersCount_absent (t : Subscribers) (a : String)
    (h : ∀ p ∈ t, p.1 ≠ a) : getSubscribersCount t a = 0 := by
  unfold getSubscribersCount
  rw [List.find?_eq_none.mpr (by intro p hp; simp [h p hp])]

theorem mapDelete_absent (t : Subscribers) (a : String)
    (h : ∀ p ∈ t, p.1 ≠ a) : mapDelete t a = t := by
  unfold mapDelete
  apply List.filter_eq_self.mpr
  intro p hp
  simp [h p hp]

theorem disposeStep_absent (t : Subscribers) (a : String)
    (h : ∀ p ∈ t, p.1 ≠ a) : disposeStep t a = t := by
  unfold disposeStep
  rw [getSubscribersCount_absent t a h]
  rw [if_pos rfl]
  exact mapDelete_absent t a h

theorem disposerRun_absent :
    ∀ (apis : List String) (t : Subscribers),
      (∀ a ∈ apis, ∀ p ∈ t, p.1 ≠ a) → disposerRun apis t = t := by
  intro apis
  induction apis with
  | nil => intro t _; rfl
  | cons a rest ih =>
    intro t h
    unfold disposerRun
    rw [List.foldl_cons, disposeStep_absent t a (h a (List.mem_cons_self a rest))]
    exact ih t (fun x hx => h x (List.mem_cons_of_mem _ hx))

/-- Claim C5 (amended): the disposer returned by `subscribeApi` decrements
the count on every invocation; a second invocation is a no-op exactly in
the case where the first invocation's targets are no longer registered
(in particular when the disposer's subscription was the only one), not in
general. -/
theorem c5_disposer_noop_once_targets_removed (apis : List String)
    (s : Subscribers)
    (h : ∀ a ∈ apis, ∀ p ∈ disposerRun apis s, p.1 ≠ a) :
    disposerRun apis (disposerRun apis s) = disposerRun apis s :=
  disposerRun_absent apis (disposerRun apis s) h

/-- Claim C5 counterexample: subscribe the same target twice (count 2), then
invoke one disposer twice. The first invocation leaves count 1, and the
second invocation — claimed to be a no-op — decrements again and removes
the target. -/
theorem c5_counterexample :
    getSubscribersCount
      (disposerRun ["a"] (subscribeApi (subscribeApi [] ["a"]) ["a"])) "a" = 1 ∧
    getSubscribersCount
      (disposerRun ["a"]
        (disposerRun ["a"] (subscribeApi (subscribeApi [] ["a"]) ["a"]))) "a" = 0 := by
  decide

theorem c5_witness :
    disposerRun ["a"] (disposerRun ["a"] [("a", 1)]) = disposerRun ["a"] [("a", 1)] :=
  c5_disposer_noop_once_targets_removed ["a"] [("a", 1)] (by decide)

theorem onServerStreamEnd_noapi (isActive : Bool) (refreshOk : Nat → Bool)
    (timeout k attempts : Nat) :
    onServerStreamEnd false isActive refreshOk timeout k attempts = (0, []) := by
  conv_lhs => rw [onServerStreamEnd.eq_def]
  rfl

theorem onServerStreamEnd_refreshOk (isActive : Bool) (refreshOk : Nat → Bool)
    (timeout k attempts : Nat) (hR : refreshOk k = true) :
    onServerStreamEnd true isActive refreshOk timeout k attempts = (1, []) := by
  conv_lhs => rw [onServerStreamEnd.eq_def]
  dsimp only
  rw [if_neg (by simp), if_pos hR]

theorem onServerStreamEnd_base (isActive : Bool) (refreshOk : Nat → Bool)
    (timeout k : Nat) (hR : refreshOk k = false) :
    onServerStreamEnd true isActive refreshOk timeout k 0 = (1, []) := by
  conv_lhs => rw [onServerStreamEnd.eq_def]
  dsimp only
  rw [if_neg (by simp), if_neg (by simp [hR])]

theorem onServerStreamEnd_inactive (refreshOk : Nat → Bool)
    (timeout k attempts : Nat) (hR : refreshOk k = false) :
    onServerStreamEnd true false refreshOk timeout k attempts = (1, []) := by
  conv_lhs => rw [onServerStreamEnd.eq_def]
  dsimp only
  rw [if_neg (by simp), if_neg (by simp [hR])]
  cases attempts <;> rfl

theorem onServerStreamEnd_retry (refreshOk : Nat → Bool) (timeout k a : Nat)
    (hR : refreshOk k = false) :
    onServerStreamEnd true true refreshOk timeout k (a + 1) =
      ((onServerStreamEnd true true refreshOk timeout (k + 1) a).1 + 1,
        timeout :: (onServerStreamEnd true true refreshOk timeout (k + 1) a).2) := by
  conv_lhs => rw [onServerStreamEnd.eq_def]
  dsimp only
  rw [if_neg (by simp), if_neg (by simp [hR])]

theorem onServerStreamEnd_count_le :
    ∀ (attempts k : Nat) (apiFound isActive : Bool) (refreshOk : Nat → Bool)
      (timeout : Nat),
      (onServerStreamEnd apiFound isActive refreshOk timeout k attempts).1 ≤
        attempts + 1 ∧
      ∀ x ∈ (onServerStreamEnd apiFound isActive refreshOk timeout k attempts).2,
        x = timeout := by
  intro attempts
  induction attempts with
  | zero =>
    intro k apiFound isActive refreshOk timeout
    cases apiFound
    · rw [onServerStreamEnd_noapi]
      exact ⟨by omega, by intro x hx; simp at hx⟩
    · cases hR : refreshOk k
      · rw [onServerStreamEnd_base isActive refreshOk timeout k hR]
        exact ⟨by omega, by intro x hx; simp at hx⟩
      · rw [onServerStreamEnd_refreshOk isActive refreshOk timeout k 0 hR]
        exact ⟨by omega, by intro x hx; simp at hx⟩
  | succ a ih =>
    intro k apiFound isActive refreshOk timeout
    cases apiFound
    · rw [onServerStreamEnd_noapi]
      exact ⟨by omega, by intro x hx; simp at hx⟩
    · cases hR : refreshOk k
      · cases isActive
        · rw [onServerStreamEnd_inactive refreshOk timeout k (a + 1) hR]
          exact ⟨by omega, by intro x hx; simp at hx⟩
        · rw [onServerStreamEnd_retry refreshOk timeout k a hR]
          obtain ⟨h1, h2⟩ := ih (k + 1) true true refreshOk timeout
          constructor
          · exact Nat.succ_le_succ h1
          · intro x hx
            rcases List.mem_cons.mp hx with h | h
            · exact h
            · exact h2 x h
      · rw [onServerStreamEnd_refreshOk isActive refreshOk timeout k (a + 1) hR]
        exact ⟨by omega, by intro x hx; simp at hx⟩

/-- Claim C6 (amended): a STREAM_END handoff with an attempts counter `n`
makes at most `n + 1` refresh calls in total; with the source's options
(`reconnectAttempts: 5`, `timeout: 1000`) and the refresh failing
throughout while the registry stays active, exactly 6 refresh calls are
made — the initial attempt plus 5 retries — each retry scheduled with the
full 1000 ms delay, and it then stops without surfacing anything. -/
theorem c6_bounded_retry_attempts :
    (∀ (apiFound isActive : Bool) (refreshOk : Nat → Bool) (timeout k attempts : Nat),
      (onServerStreamEnd apiFound isActive refreshOk timeout k attempts).1 ≤
        attempts + 1 ∧
      ∀ x ∈ (onServerStreamEnd apiFound isActive refreshOk timeout k attempts).2,
        x = timeout) ∧
    (∀ k, onServerStreamEnd true true (fun _ => false) 1000 k 5 =
      (6, [1000, 1000, 1000, 1000, 1000])) := by
  constructor
  · intro apiFound isActive refreshOk timeout k attempts
    exact onServerStreamEnd_count_le attempts k apiFound isActive refreshOk timeout
  · intro k
    rfl

/-- Claim C6 counterexample: with the source's options a single STREAM_END
whose refresh keeps failing while a target stays registered triggers six
refresh attempts (the initial call plus five retries), not "at most 5". -/
theorem c6_counterexample :
    onServerStreamEnd true true (fun _ => false) 1000 0 5 =
      (6, [1000, 1000, 1000, 1000, 1000]) ∧
    (onServerStreamEnd true true (fun _ => false) 1000 0 5).1 ≠ 5 := by
  decide

/-- Claim C7 (amended): with `waitUntilLoaded` (the default), a preload
failure is logged and the subscription never proceeds; with
`waitUntilLoaded: false` the subscription proceeds regardless and the
failure is not logged by `subscribeStores`. The returned disposer is
usable at any point: invoked before the subscription starts, during its
awaited `store.subscribe()` calls, or after completion, it always leaves
no store subscribed. -/
theorem c7_preload_failure_and_midflight_disposal :
    (∀ (n : Nat) (dt : DisposeTime),
      (subscribeStoresRun n true true false dt).logged = true ∧
      (subscribeStoresRun n true true false dt).activeSubs = 0) ∧
    (∀ (n : Nat) (preload waitUntilLoaded preloadOk : Bool),
      (subscribeStoresRun n preload waitUntilLoaded preloadOk
        DisposeTime.beforeSubscribe).activeSubs = 0 ∧
      (subscribeStoresRun n preload waitUntilLoaded preloadOk
        DisposeTime.duringSubscribe).activeSubs = 0 ∧
      (subscribeStoresRun n preload waitUntilLoaded preloadOk
        DisposeTime.afterSubscribe).activeSubs = 0) := by
  constructor
  · intro n dt
    cases dt <;> simp [subscribeStoresRun, initialStores, unsubscribeRun]
  · intro n p w ok
    refine ⟨?_, ?_, ?_⟩ <;>
      cases w <;> cases p <;> cases ok <;>
        simp [subscribeStoresRun, subscribeRun, unsubscribeRun, initialStores]

/-- Claim C7 counterexample: a `subscribeStores` call with
`waitUntilLoaded: false` whose preload fails still subscribes its store,
and `subscribeStores` logs nothing — the claim's "the failure is logged
and the underlying subscription does not proceed" does not hold for every
call. -/
theorem c7_counterexample :
    (subscribeStoresRun 1 true false false DisposeTime.never).logged = false ∧
    (subscribeStoresRun 1 true false false DisposeTime.never).activeSubs = 1 := by
  decide

/-- Claim C1 (confirmed): a connect attempt whose request id has been
superseded while its fetch was in flight aborts its request and returns:
no event from its response body is dispatched, and no chunk of the body is
ever read. -/
theorem c1_superseded_attempt_dispatches_nothing (env : ApiEnv)
    (parse : Str → Option KubeWatchEvent) (d : RVTable) (s : ConnSharedState)
    (apis : List String) (others : Nat) (chunks : List Str) (readError : Bool)
    (hapis : apis.isEmpty = false) (hothers : others ≠ 0) :
    (connect env parse d s true apis others
        (FetchOutcome.body chunks readError)).dispatched = [] ∧
    (connect env parse d s true apis others
        (FetchOutcome.body chunks readError)).aborted = true ∧
    (connect env parse d s true apis others
        (FetchOutcome.body chunks readError)).chunksRead = 0 := by
  unfold connect
  rw [hapis, if_neg (by simp)]
  dsimp only
  rw [if_pos (by omega)]
  exact ⟨rfl, rfl, rfl⟩

theorem c1_witness :
    (connect testEnv testParse [] ⟨0, none, false⟩ true ["u"] 1
        (FetchOutcome.body [lineA] false)).dispatched = [] ∧
    (connect testEnv testParse [] ⟨0, none, false⟩ true ["u"] 1
        (FetchOutcome.body [lineA] false)).aborted = true ∧
    (connect testEnv testParse [] ⟨0, none, false⟩ true ["u"] 1
        (FetchOutcome.body [lineA] false)).chunksRead = 0 :=
  c1_superseded_attempt_dispatches_nothing testEnv testParse [] ⟨0, none, false⟩
    ["u"] 1 [lineA] false (by decide) (by decide)

/-- Claim C8 (confirmed): `connect` never raises to its caller — it is a
total function of its inputs. On every input it first cancels the prior
reader (the initial `disconnect`), it resolves with `isConnected = false`
(the state machine is left Idle), and an error is logged exactly when the
attempt actually failed: the fetch rejected, or a read error hit an
attempt that was not skipped (offline or no targets) nor superseded. -/
theorem c8_connect_resolves_disconnected_and_logs (env : ApiEnv)
    (parse : Str → Option KubeWatchEvent) (d : RVTable) (s : ConnSharedState)
    (online : Bool) (apis : List String) (others : Nat)
    (outcome : FetchOutcome) :
    (connect env parse d s online apis others outcome).state.isConnected = false ∧
    (connect env parse d s online apis others outcome).cancelledReader = s.reader ∧
    (connect env parse d s online apis others outcome).loggedError =
      connectLogsErrorSpec online apis others outcome := by
  unfold connect connectLogsErrorSpec disconnect
  cases online
  · simp
  · cases he : apis.isEmpty
    · rcases outcome with _ | ⟨chunks, re⟩
      · simp
      · rw [if_neg (by simp)]
        dsimp only
        by_cases ho : others = 0
        · subst ho
          rw [if_neg (by omega)]
          simp
        · rw [if_pos (by omega)]
          simp [ho]
    · simp [he]

/-- Claim C9 (confirmed): the `finally` clause of every `connect`
invocation unconditionally clears `isConnected` (touching nothing else),
including a superseded invocation; concretely, when attempt A starts, a
newer attempt B starts and connects, and then A's stale fetch resolves and
A settles, `isConnected` ends up `false` even though B's reader is still
installed and B's stream is still live. -/
theorem c9_stale_settle_clears_isConnected :
    (∀ s : ConnSharedState, (connectFinally s).isConnected = false ∧
      (connectFinally s).reader = s.reader ∧
      (connectFinally s).requestId = s.requestId) ∧
    (let s0 : ConnSharedState := ⟨0, none, false⟩
     let pA := connectBegin s0
     let pB := connectBegin pA.1
     let rB := connectResume pB.1 pB.2
     let rA := connectResume rB.1 pA.2
     let s5 := connectFinally rA.1
     rB.2 = true ∧ rB.1.isConnected = true ∧ rA.2 = false ∧
       s5.isConnected = false ∧ s5.reader = some pB.2) := by
  constructor
  · intro s
    exact ⟨rfl, rfl, rfl⟩
  · decide
